import Mathlib

/-!
Shallow embedding of `src/mongo/db/pipeline/accumulation_statement.h`:
the accumulator registry, the accumulation-statement parser and the
accumulation-statement value object of the aggregation pipeline.

The repository ships only the header: the bodies of
`AccumulationStatement::registerAccumulator`, `getFactory`,
`parseAccumulationStatement` and `makeAccumulator` live in
`accumulation_statement.cpp`, which is not part of the repository
fragment. Those operations are therefore modelled from the spec
(each such definition says so in its doc comment); the
`REGISTER_ACCUMULATOR` macro and the `AccumulationStatement`
constructor and data members are embedded from the header itself.

The registry is polymorphic in the factory type `F` (in C++,
`Accumulator::Factory` is an opaque `std::function` value; Lean
equality of `F` values models reference identity of the registered
factory). The external expression subsystem is polymorphic in the
expression type `E`, the expression context `Ctx` and the variable
parse state `Vps`, and the expression parser itself is a parameter,
since the spec treats it as a black box.
-/

namespace MongoAccum

/-- Parse-time errors of this core (C++ `UserException`s): the
Unknown-Operator and Malformed-Field errors raised here, and an
`external` constructor for errors originating in the external
expression subsystem, which share the same exception channel. -/
inductive ParseError where
  | unknownOperator (name : String)
  | malformedField (fieldName : String)
  | external (code : Nat) (msg : String)
deriving DecidableEq, Repr

/-- The fatal startup-time error: registering a name already present
aborts startup rather than overwriting. -/
inductive RegError where
  | duplicateRegistration (name : String)
deriving DecidableEq, Repr

/-- The process-wide registry: a name → factory map, modelled as an
association list in registration order. -/
abbrev Registry (F : Type) := List (String × F)

/-- Whether `name` is already present in the registry. -/
def containsName {F : Type} (r : Registry F) (name : String) : Bool :=
  r.any (fun p => p.1 == name)

/-- Modelled from the spec: the body of
`AccumulationStatement::registerAccumulator` (declared at header lines
80–88, defined in the missing `accumulation_statement.cpp`). Inserts
`name → factory`; re-registering an already-present name fails fatally
(aborts startup) and never overwrites. The fatal abort is modelled as
`Except.error`, which produces no updated registry. -/
def registerAccumulator {F : Type} (name : String) (factory : F) (r : Registry F) :
    Except RegError (Registry F) :=
  if containsName r name then .error (.duplicateRegistration name)
  else .ok (r ++ [(name, factory)])

/-- Modelled from the spec: the body of
`AccumulationStatement::getFactory` (declared at header lines 90–94,
defined in the missing `accumulation_statement.cpp`). Returns the
factory registered under `name`, or raises an Unknown-Operator error
when `name` is absent. -/
def getFactory {F : Type} (r : Registry F) (name : String) : Except ParseError F :=
  match r.find? (fun p => p.1 == name) with
  | some p => .ok p.2
  | none => .error (.unknownOperator name)

/-- The startup phase: each operator module's registration call in
sequence, strictly before any lookup. A fatal error from any single
registration aborts the whole startup. -/
def registerAll {F : Type} (pairs : List (String × F)) (r : Registry F) :
    Except RegError (Registry F) :=
  match pairs with
  | [] => .ok r
  | (n, f) :: rest =>
      match registerAccumulator n f r with
      | .ok r' => registerAll rest r'
      | .error e => .error e

/-- A BSON value, as far as this core inspects one: the parser only
distinguishes objects (and their field lists) from everything else;
the argument spec is opaque and handed to the expression subsystem. -/
inductive BSONValue where
  | object (fields : List (String × BSONValue))
  | array (elems : List BSONValue)
  | str (s : String)
  | int (n : Int)
  | bool (b : Bool)
  | null

/-- A BSON element: a field name paired with its value, as consumed by
`parseAccumulationStatement`. -/
abbrev BSONElement := String × BSONValue

/-- The `AccumulationStatement` value object (header lines 60–110):
the output field name, the parsed input expression, and the factory
resolved from the registry (the private `_factory` member). The
constructor (header lines 63–69) just stores the three components. -/
structure AccumulationStatement (E F : Type) where
  fieldName : String
  expression : E
  factory : F

/-- Modelled from the spec: the body of
`AccumulationStatement::parseAccumulationStatement` (declared at
header lines 75–78, defined in the missing
`accumulation_statement.cpp`). Takes the registry, the external
expression parser (a black box receiving the expression context,
the argument spec and the variable parse state), the expression
context, the accumulated-field element and the variable parse state.
Steps: the outer key is the field name; the operator spec must be an
object with exactly one entry, else Malformed-Field naming the field;
the inner key is looked up in the registry (absent ⇒
Unknown-Operator); the argument spec goes to the expression parser,
whose errors propagate unchanged; on success the three components are
assembled into a statement. -/
def parseAccumulationStatement {Ctx Vps E F : Type}
    (registry : Registry F)
    (parseExpr : Ctx → BSONValue → Vps → Except ParseError E)
    (expCtx : Ctx) (elem : BSONElement) (vps : Vps) :
    Except ParseError (AccumulationStatement E F) :=
  match elem.2 with
  | .object specs =>
      match specs with
      | [spec] =>
          match getFactory registry spec.1 with
          | .ok factory =>
              match parseExpr expCtx spec.2 vps with
              | .ok expr => .ok ⟨elem.1, expr, factory⟩
              | .error e => .error e
          | .error e => .error e
      | _ => .error (.malformedField elem.1)
  | _ => .error (.malformedField elem.1)

/-- Shallow embedding of the `REGISTER_ACCUMULATOR(key, factory)`
macro (header lines 47–51): its initializer calls
`AccumulationStatement::registerAccumulator("$" #key, factory)`,
i.e. it registers under the key with the `$` sigil prepended. -/
def REGISTER_ACCUMULATOR {F : Type} (key : String) (factory : F) (r : Registry F) :
    Except RegError (Registry F) :=
  registerAccumulator ("$" ++ key) factory r

/-- The grouping engine's pool of live accumulator instances, one
state value per instance; an instance is named by its index. A factory
is a function from the expression context to a fresh accumulator
state, following the spec's `factory : function(context) →
AccumulatorInstance`. -/
abbrev AccumWorld (S : Type) := List S

/-- Modelled from the spec: the body of
`AccumulationStatement::makeAccumulator` (declared at header lines
103–105, defined in the missing `accumulation_statement.cpp`).
Invokes the bound factory with the supplied expression context and
returns a brand-new accumulator instance, modelled as allocating a
fresh slot in the instance pool; the method is `const`, so the
statement itself is read-only here. Returns the new instance's index
and the extended pool. -/
def makeAccumulator {Ctx E S : Type}
    (stmt : AccumulationStatement E (Ctx → S)) (expCtx : Ctx)
    (w : AccumWorld S) : Nat × AccumWorld S :=
  (w.length, w ++ [stmt.factory expCtx])

/-- Mutating one accumulator instance in the pool: apply a state
update to the instance at index `i`, leaving every other instance
untouched (each instance owns its running aggregate exclusively). -/
def mutateAt {S : Type} (w : AccumWorld S) (i : Nat) (f : S → S) : AccumWorld S :=
  match w[i]? with
  | some s => w.set i (f s)
  | none => w

/-- The grouping engine's use of one statement across many group
buckets: call `makeAccumulator` once per context in `ctxs`, threading
the instance pool; the statement is carried along unchanged (it is
`const` to every call) and returned for inspection. -/
def runMakeN {Ctx E S : Type}
    (stmt : AccumulationStatement E (Ctx → S)) (ctxs : List Ctx)
    (w : AccumWorld S) : AccumulationStatement E (Ctx → S) × AccumWorld S :=
  match ctxs with
  | [] => (stmt, w)
  | c :: rest => runMakeN stmt rest (makeAccumulator stmt c w).2

/-! ### Registry lemmas -/

theorem getFactory_of_not_contains {F : Type} {r : Registry F} {name : String}
    (h : containsName r name = false) :
    getFactory r name = .error (.unknownOperator name) := by
  unfold getFactory
  have hf : r.find? (fun p => p.1 == name) = none := by
    rw [List.find?_eq_none]
    intro p hp hb
    have : containsName r name = true := by
      unfold containsName
      rw [List.any_eq_true]
      exact ⟨p, hp, hb⟩
    rw [this] at h
    cases h
  rw [hf]

theorem contains_of_getFactory_ok {F : Type} {r : Registry F} {name : String} {f : F}
    (h : getFactory r name = .ok f) : containsName r name = true := by
  unfold getFactory at h
  cases hf : r.find? (fun p => p.1 == name) with
  | none => rw [hf] at h; cases h
  | some p =>
      unfold containsName
      rw [List.any_eq_true]
      have hp := List.find?_some hf
      exact ⟨p, List.mem_of_find?_eq_some hf, hp⟩

theorem getFactory_append_of_ok {F : Type} {r l : Registry F} {name : String} {f : F}
    (h : getFactory r name = .ok f) : getFactory (r ++ l) name = .ok f := by
  unfold getFactory at h ⊢
  cases hf : r.find? (fun p => p.1 == name) with
  | none => rw [hf] at h; cases h
  | some p =>
      rw [hf] at h
      rw [List.find?_append, hf]
      exact h

theorem getFactory_append_singleton {F : Type} {r : Registry F} {name : String} {f : F}
    (h : containsName r name = false) :
    getFactory (r ++ [(name, f)]) name = .ok f := by
  unfold getFactory
  have hf : r.find? (fun p => p.1 == name) = none := by
    rw [List.find?_eq_none]
    intro p hp hb
    have : containsName r name = true := by
      unfold containsName
      rw [List.any_eq_true]
      exact ⟨p, hp, hb⟩
    rw [this] at h
    cases h
  rw [List.find?_append, hf, Option.none_or]
  simp [List.find?]

theorem registerAll_preserve {F : Type} {ps : List (String × F)} {r0 r : Registry F}
    {name : String} {f : F}
    (hreg : registerAll ps r0 = .ok r) (h : getFactory r0 name = .ok f) :
    getFactory r name = .ok f := by
  induction ps generalizing r0 with
  | nil =>
      unfold registerAll at hreg
      cases hreg
      exact h
  | cons q rest ih =>
      obtain ⟨n, g⟩ := q
      unfold registerAll registerAccumulator at hreg
      cases hc : containsName r0 n with
      | true => rw [hc] at hreg; simp at hreg
      | false =>
          rw [hc] at hreg
          simp only [Bool.false_eq_true, if_false] at hreg
          exact ih hreg (getFactory_append_of_ok h)

theorem containsName_append_singleton_ne {F : Type} {r : Registry F}
    {n name : String} {g : F}
    (hne : n ≠ name) (h : containsName r name = false) :
    containsName (r ++ [(n, g)]) name = false := by
  unfold containsName at h ⊢
  rw [List.any_append, h]
  simp [hne]

/-! ### Registry claims -/

/-- C1: every `(name, factory)` pair registered via `registerAccumulator`
during a successful startup registration sequence is returned verbatim by
a subsequent `getFactory name`: registration followed by lookup is a
round trip over the registry map. -/
theorem C1_register_then_lookup {F : Type} {ps : List (String × F)} {r : Registry F}
    {name : String} {f : F}
    (hreg : registerAll ps ([] : Registry F) = .ok r)
    (hmem : (name, f) ∈ ps) :
    getFactory r name = .ok f := by
  suffices H : ∀ (r0 : Registry F), registerAll ps r0 = .ok r → getFactory r name = .ok f by
    exact H [] hreg
  clear hreg
  induction ps with
  | nil => cases hmem
  | cons q rest ih =>
      intro r0 hreg
      obtain ⟨n, g⟩ := q
      unfold registerAll registerAccumulator at hreg
      cases hc : containsName r0 n with
      | true => rw [hc] at hreg; simp at hreg
      | false =>
          rw [hc] at hreg
          simp only [Bool.false_eq_true, if_false] at hreg
          rcases List.mem_cons.mp hmem with heq | hmem'
          · have h1 : name = n := congrArg Prod.fst heq
            have h2 : f = g := congrArg Prod.snd heq
            subst h1; subst h2
            exact registerAll_preserve hreg (getFactory_append_singleton hc)
          · exact ih hmem' _ hreg

/-- Witness for C1: registering `$sum` and `$avg` from the empty registry,
looking up `$avg` returns the registered factory. -/
theorem C1_witness :
    registerAll [("$sum", 7), ("$avg", 8)] ([] : Registry Nat)
        = .ok [("$sum", 7), ("$avg", 8)] ∧
    ("$avg", (8 : Nat)) ∈ [("$sum", 7), ("$avg", 8)] ∧
    getFactory [("$sum", 7), ("$avg", 8)] "$avg" = .ok 8 :=
  ⟨rfl, by decide,
    @C1_register_then_lookup Nat [("$sum", 7), ("$avg", 8)]
      [("$sum", 7), ("$avg", 8)] "$avg" 8 rfl (by decide)⟩

/-- C2: a name never registered during the startup registration sequence
makes `getFactory` fail with an Unknown-Operator error naming it, rather
than return a factory. -/
theorem C2_unregistered_lookup_fails {F : Type} {ps : List (String × F)} {r : Registry F}
    {name : String}
    (hreg : registerAll ps ([] : Registry F) = .ok r)
    (hmem : name ∉ ps.map Prod.fst) :
    getFactory r name = .error (.unknownOperator name) := by
  suffices H : ∀ (r0 : Registry F), containsName r0 name = false →
      registerAll ps r0 = .ok r →
      getFactory r name = .error (.unknownOperator name) by
    exact H [] rfl hreg
  clear hreg
  induction ps with
  | nil =>
      intro r0 hc hreg
      unfold registerAll at hreg
      cases hreg
      exact getFactory_of_not_contains hc
  | cons q rest ih =>
      intro r0 hc hreg
      obtain ⟨n, g⟩ := q
      have hne : n ≠ name := by
        intro he
        exact hmem (by simp [he])
      have hmem' : name ∉ rest.map Prod.fst := by
        intro hin
        exact hmem (by simp [hin])
      unfold registerAll registerAccumulator at hreg
      cases hcn : containsName r0 n with
      | true => rw [hcn] at hreg; simp at hreg
      | false =>
          rw [hcn] at hreg
          simp only [Bool.false_eq_true, if_false] at hreg
          exact ih hmem' _ (containsName_append_singleton_ne hne hc) hreg

/-- Witness for C2: `$median` was never registered, so its lookup fails
with Unknown-Operator. -/
theorem C2_witness :
    registerAll [("$sum", 7), ("$avg", 8)] ([] : Registry Nat)
        = .ok [("$sum", 7), ("$avg", 8)] ∧
    "$median" ∉ ([("$sum", 7), ("$avg", 8)] : List (String × Nat)).map Prod.fst ∧
    getFactory [("$sum", 7), ("$avg", 8)] "$median"
        = .error (.unknownOperator "$median") :=
  ⟨rfl, by decide,
    @C2_unregistered_lookup_fails Nat [("$sum", 7), ("$avg", 8)]
      [("$sum", 7), ("$avg", 8)] "$median" rfl (by decide)⟩

/-- C3: registering a name already present in the registry fails fatally
with Duplicate-Registration: no updated registry is produced (the fatal
error carries none), so the existing entry for that name is unchanged
and never silently overwritten. -/
theorem C3_duplicate_registration_fatal {F : Type} {r : Registry F}
    {name : String} {f0 g : F}
    (h : getFactory r name = .ok f0) :
    registerAccumulator name g r = .error (.duplicateRegistration name) ∧
    getFactory r name = .ok f0 := by
  have hc := contains_of_getFactory_ok h
  refine ⟨?_, h⟩
  unfold registerAccumulator
  rw [hc]
  simp

/-- Witness for C3: re-registering `$sum` over a registry that already
holds it fails fatally and leaves the old factory in place. -/
theorem C3_witness :
    getFactory ([("$sum", 7)] : Registry Nat) "$sum" = .ok 7 ∧
    (registerAccumulator "$sum" 9 ([("$sum", 7)] : Registry Nat)
        = .error (.duplicateRegistration "$sum") ∧
      getFactory ([("$sum", 7)] : Registry Nat) "$sum" = .ok 7) :=
  ⟨rfl, C3_duplicate_registration_fatal rfl⟩

/-! ### Parser lemmas -/

theorem parse_singleton_ok {Ctx Vps E F : Type} {r : Registry F}
    {pe : Ctx → BSONValue → Vps → Except ParseError E}
    {c : Ctx} {vps : Vps} {fname op : String} {arg : BSONValue} {fac : F} {e : E}
    (hop : getFactory r op = .ok fac) (harg : pe c arg vps = .ok e) :
    parseAccumulationStatement r pe c (fname, .object [(op, arg)]) vps
      = .ok ⟨fname, e, fac⟩ := by
  simp [parseAccumulationStatement, hop, harg]

/-! ### Toy expression subsystem used by the witnesses -/

/-- A toy expression type standing in for the external expression tree
in concrete witnesses: a field-path reference or a constant. -/
inductive DemoExpr where
  | fieldPath (path : String)
  | const (n : Int)
deriving DecidableEq, Repr

/-- A toy external expression parse routine for concrete witnesses:
strings become field-path expressions, integers become constants, and
anything else raises an error of the expression subsystem. -/
def demoParseExpr (_u : Unit) (v : BSONValue) (_w : Unit) : Except ParseError DemoExpr :=
  match v with
  | .str s => .ok (.fieldPath s)
  | .int n => .ok (.const n)
  | _ => .error (.external 17276 "Unsupported expression")

/-! ### Parser claims -/

/-- C4: parsing a well-formed accumulated field whose operator is
registered succeeds, and the resulting statement's field name is the
outer key, its expression is exactly the external expression parse
result of the argument spec, and its bound factory is exactly the
registered one. -/
theorem C4_parse_wellformed_succeeds {Ctx Vps E F : Type} {r : Registry F}
    {pe : Ctx → BSONValue → Vps → Except ParseError E}
    {c : Ctx} {vps : Vps} {fname op : String} {arg : BSONValue} {fac : F} {e : E}
    (hop : getFactory r op = .ok fac) (harg : pe c arg vps = .ok e) :
    parseAccumulationStatement r pe c (fname, .object [(op, arg)]) vps
      = .ok ⟨fname, e, fac⟩ :=
  parse_singleton_ok hop harg

/-- Witness for C4: parsing `{"total": {"$sum": "$amount"}}` against a
registry holding `$sum` yields field name `total`, the parsed
`$amount` field-path expression, and the registered factory. -/
theorem C4_witness :
    getFactory ([("$sum", 7)] : Registry Nat) "$sum" = .ok 7 ∧
    demoParseExpr () (.str "$amount") () = .ok (.fieldPath "$amount") ∧
    parseAccumulationStatement ([("$sum", 7)] : Registry Nat) demoParseExpr ()
        ("total", .object [("$sum", .str "$amount")]) ()
      = .ok ⟨"total", .fieldPath "$amount", 7⟩ :=
  ⟨rfl, rfl,
    @C4_parse_wellformed_succeeds Unit Unit DemoExpr Nat [("$sum", 7)]
      demoParseExpr () () "total" "$sum" (.str "$amount") 7
      (.fieldPath "$amount") rfl rfl⟩

/-- C5: a field definition whose operator spec does not have exactly
one entry (zero entries, two or more entries, or no object at all)
fails with a Malformed-Field error naming the offending field. -/
theorem C5_malformed_field_fails {Ctx Vps E F : Type} {r : Registry F}
    {pe : Ctx → BSONValue → Vps → Except ParseError E}
    {c : Ctx} {vps : Vps} {fname : String} {specs : List (String × BSONValue)}
    (h : specs.length ≠ 1) :
    parseAccumulationStatement r pe c (fname, .object specs) vps
      = .error (.malformedField fname) := by
  match specs with
  | [] => rfl
  | [spec] => exact absurd rfl h
  | x :: y :: rest => rfl

/-- Witness for C5: `{"total": {"$sum": "$a", "$avg": "$b"}}` (two
entries in the inner mapping) fails with Malformed-Field naming
`total`. -/
theorem C5_witness :
    ([("$sum", BSONValue.str "$a"), ("$avg", BSONValue.str "$b")].length ≠ 1) ∧
    parseAccumulationStatement ([("$sum", 7)] : Registry Nat) demoParseExpr ()
        ("total", .object [("$sum", .str "$a"), ("$avg", .str "$b")]) ()
      = .error (.malformedField "total") :=
  ⟨by decide,
    @C5_malformed_field_fails Unit Unit DemoExpr Nat [("$sum", 7)]
      demoParseExpr () () "total"
      [("$sum", .str "$a"), ("$avg", .str "$b")] (by decide)⟩

/-- C6: when the external expression parser raises an error on the
argument spec, `parseAccumulationStatement` propagates that exact
error value to its caller, neither wrapped nor replaced. -/
theorem C6_expr_error_propagates {Ctx Vps E F : Type} {r : Registry F}
    {pe : Ctx → BSONValue → Vps → Except ParseError E}
    {c : Ctx} {vps : Vps} {fname op : String} {arg : BSONValue} {fac : F}
    {err : ParseError}
    (hop : getFactory r op = .ok fac) (he : pe c arg vps = .error err) :
    parseAccumulationStatement r pe c (fname, .object [(op, arg)]) vps
      = .error err := by
  simp [parseAccumulationStatement, hop, he]

/-- Witness for C6: the toy expression subsystem rejects a null
argument with its own error, and the parser surfaces that very
error. -/
theorem C6_witness :
    getFactory ([("$sum", 7)] : Registry Nat) "$sum" = .ok 7 ∧
    demoParseExpr () .null () = .error (.external 17276 "Unsupported expression") ∧
    parseAccumulationStatement ([("$sum", 7)] : Registry Nat) demoParseExpr ()
        ("total", .object [("$sum", .null)]) ()
      = .error (.external 17276 "Unsupported expression") :=
  ⟨rfl, rfl,
    @C6_expr_error_propagates Unit Unit DemoExpr Nat [("$sum", 7)]
      demoParseExpr () () "total" "$sum" .null 7
      (.external 17276 "Unsupported expression") rfl rfl⟩

/-- C8: `parseAccumulationStatement` is atomic at its interface: the
result is a value of `Except`, so a caller receives either an error
and no statement, or a statement that is fully valid — its field name
is the outer key, its factory is the registry's entry for the inner
operator key, and its expression is the external parser's successful
result; no partially constructed statement is observable. -/
theorem C8_parse_atomic {Ctx Vps E F : Type} {r : Registry F}
    {pe : Ctx → BSONValue → Vps → Except ParseError E}
    {c : Ctx} {vps : Vps} {elem : BSONElement}
    {stmt : AccumulationStatement E F}
    (h : parseAccumulationStatement r pe c elem vps = .ok stmt) :
    stmt.fieldName = elem.1 ∧
    ∃ op arg, elem.2 = .object [(op, arg)] ∧
      getFactory r op = .ok stmt.factory ∧
      pe c arg vps = .ok stmt.expression := by
  obtain ⟨fname, v⟩ := elem
  cases v with
  | object specs =>
      cases specs with
      | nil => simp [parseAccumulationStatement] at h
      | cons spec rest =>
          cases rest with
          | cons y ys => simp [parseAccumulationStatement] at h
          | nil =>
              obtain ⟨op, arg⟩ := spec
              simp only [parseAccumulationStatement] at h
              cases hop : getFactory r op with
              | error e => rw [hop] at h; simp at h
              | ok fac =>
                  rw [hop] at h
                  cases he : pe c arg vps with
                  | error e => rw [he] at h; simp at h
                  | ok e =>
                      rw [he] at h
                      simp only [Except.ok.injEq] at h
                      subst h
                      exact ⟨rfl, op, arg, rfl, hop, he⟩
  | array l => simp [parseAccumulationStatement] at h
  | str s => simp [parseAccumulationStatement] at h
  | int n => simp [parseAccumulationStatement] at h
  | bool b => simp [parseAccumulationStatement] at h
  | null => simp [parseAccumulationStatement] at h

/-- Witness for C8: a concrete successful parse, whose result C8 shows
to be fully valid in all three components. -/
theorem C8_witness :
    parseAccumulationStatement ([("$sum", 7)] : Registry Nat) demoParseExpr ()
        ("total", .object [("$sum", .str "$amount")]) ()
      = .ok ⟨"total", .fieldPath "$amount", 7⟩ ∧
    ((AccumulationStatement.mk "total" (DemoExpr.fieldPath "$amount") 7).fieldName
        = "total" ∧
      ∃ op arg, BSONValue.object [("$sum", BSONValue.str "$amount")]
          = .object [(op, arg)] ∧
        getFactory ([("$sum", 7)] : Registry Nat) op
          = .ok (AccumulationStatement.mk "total" (DemoExpr.fieldPath "$amount") 7).factory ∧
        demoParseExpr () arg ()
          = .ok (AccumulationStatement.mk "total" (DemoExpr.fieldPath "$amount") 7).expression) :=
  ⟨rfl,
    @C8_parse_atomic Unit Unit DemoExpr Nat [("$sum", 7)] demoParseExpr () ()
      ("total", .object [("$sum", .str "$amount")])
      (AccumulationStatement.mk "total" (DemoExpr.fieldPath "$amount") 7) rfl⟩

/-! ### Accumulator-instantiation lemmas -/

theorem mutateAt_ne {S : Type} (w : AccumWorld S) {i j : Nat} (h : i ≠ j)
    (g : S → S) : (mutateAt w i g)[j]? = w[j]? := by
  unfold mutateAt
  cases hw : w[i]? with
  | none => rfl
  | some s => exact List.getElem?_set_ne h

theorem getElem?_append_two {S : Type} (w : List S) (a b : S) :
    (w ++ [a] ++ [b])[w.length]? = some a := by
  rw [List.getElem?_append_left (by simp)]
  exact List.getElem?_concat_length w a

/-! ### Accumulator-instantiation claims -/

/-- C7: two successive `makeAccumulator` calls on the same statement
allocate two distinct brand-new instances, each freshly built by the
bound factory from its supplied context, and mutating either one
leaves the other's state observably unchanged. -/
theorem C7_accumulators_independent {Ctx E S : Type}
    (stmt : AccumulationStatement E (Ctx → S)) (c1 c2 : Ctx)
    (w0 : AccumWorld S) (g : S → S) :
    let r1 := makeAccumulator stmt c1 w0
    let r2 := makeAccumulator stmt c2 r1.2
    r1.1 ≠ r2.1 ∧
    r2.2[r1.1]? = some (stmt.factory c1) ∧
    r2.2[r2.1]? = some (stmt.factory c2) ∧
    (mutateAt r2.2 r1.1 g)[r2.1]? = r2.2[r2.1]? ∧
    (mutateAt r2.2 r2.1 g)[r1.1]? = r2.2[r1.1]? := by
  have hne : w0.length ≠ (w0 ++ [stmt.factory c1]).length := by
    simp
  refine ⟨hne, ?_, ?_, ?_, ?_⟩
  · exact getElem?_append_two w0 (stmt.factory c1) (stmt.factory c2)
  · exact List.getElem?_concat_length (w0 ++ [stmt.factory c1]) (stmt.factory c2)
  · exact mutateAt_ne _ hne g
  · exact mutateAt_ne _ (Ne.symm hne) g

/-- C9: an `AccumulationStatement` is immutable after construction:
any number of `makeAccumulator` calls with any contexts leave its
field name, its expression and its bound factory exactly as
constructed. -/
theorem C9_statement_immutable {Ctx E S : Type}
    (stmt : AccumulationStatement E (Ctx → S)) (ctxs : List Ctx)
    (w : AccumWorld S) :
    (runMakeN stmt ctxs w).1.fieldName = stmt.fieldName ∧
    (runMakeN stmt ctxs w).1.expression = stmt.expression ∧
    (runMakeN stmt ctxs w).1.factory = stmt.factory := by
  induction ctxs generalizing w with
  | nil => exact ⟨rfl, rfl, rfl⟩
  | cons c rest ih => exact ih _

/-! ### Macro claim -/

/-- C10: an operator registered through `REGISTER_ACCUMULATOR(key,
factory)` is entered under `"$" ++ key`, so the registered name begins
with the `$` sigil, `getFactory` finds the factory under the
sigil-carrying name, and the parser's verbatim lookup of the inner key
`"$key"` resolves to that factory. -/
theorem C10_macro_prepends_sigil {Ctx Vps E F : Type} {key : String} {f : F}
    {r r' : Registry F}
    {pe : Ctx → BSONValue → Vps → Except ParseError E}
    {c : Ctx} {vps : Vps} {fname : String} {arg : BSONValue} {e : E}
    (h : REGISTER_ACCUMULATOR key f r = .ok r')
    (harg : pe c arg vps = .ok e) :
    ("$" ++ key).data.head? = some '$' ∧
    getFactory r' ("$" ++ key) = .ok f ∧
    parseAccumulationStatement r' pe c (fname, .object [("$" ++ key, arg)]) vps
      = .ok ⟨fname, e, f⟩ := by
  unfold REGISTER_ACCUMULATOR registerAccumulator at h
  cases hc : containsName r ("$" ++ key) with
  | true => rw [hc] at h; simp at h
  | false =>
      rw [hc] at h
      simp only [Bool.false_eq_true, if_false, Except.ok.injEq] at h
      subst h
      have hg := getFactory_append_singleton (f := f) hc
      exact ⟨rfl, hg, parse_singleton_ok hg harg⟩

/-- Witness for C10: `REGISTER_ACCUMULATOR(sum, 7)` registers `$sum`,
the lookup of `$sum` returns the factory, and parsing
`{"total": {"$sum": "$amount"}}` binds it. -/
theorem C10_witness :
    REGISTER_ACCUMULATOR "sum" (7 : Nat) [] = .ok [("$sum", 7)] ∧
    demoParseExpr () (.str "$amount") () = .ok (.fieldPath "$amount") ∧
    (("$" ++ "sum").data.head? = some '$' ∧
      getFactory ([("$sum", 7)] : Registry Nat) ("$" ++ "sum") = .ok 7 ∧
      parseAccumulationStatement ([("$sum", 7)] : Registry Nat) demoParseExpr ()
          ("total", .object [("$" ++ "sum", .str "$amount")]) ()
        = .ok ⟨"total", .fieldPath "$amount", 7⟩) :=
  ⟨rfl, rfl,
    @C10_macro_prepends_sigil Unit Unit DemoExpr Nat "sum" 7 [] [("$sum", 7)]
      demoParseExpr () () "total" (.str "$amount") (.fieldPath "$amount")
      rfl rfl⟩

end MongoAccum
